import Mathlib

/-!
Shallow embedding of the booking CRUD service in `src/crm/booking.py`
(FastAPI + SQLModel over SQLite), together with proofs about its
overlap-validation logic, error handling and update semantics.

Python values are modelled as follows:
* `datetime.datetime` becomes `Datetime`: calendar fields plus an optional
  UTC-offset (`tzinfo`); comparisons and `timedelta` arithmetic on naive
  datetimes go through the exact microsecond timeline (`Datetime.toMicros`).
* The SQLite table of `Booking` rows becomes `Store`: a list of rows plus the
  next auto-assigned primary key.
* Each route handler becomes a pure function from its inputs and the store to
  `Except HTTPError result × Store`; raising `HTTPException` before any
  `session` mutation leaves the store component untouched, exactly as the
  Python control flow does.
-/

/-- Days since 1970-01-01 of a civil date (standard days-from-civil
    algorithm); used to place calendar fields on a linear timeline. -/
def daysFromCivil (y m d : Nat) : Int :=
  let y := y - (if m ≤ 2 then 1 else 0)
  let era := y / 400
  let yoe := y - era * 400
  let mp := (m + 9) % 12
  let doy := (153 * mp + 2) / 5 + d - 1
  let doe := yoe * 365 + yoe / 4 - yoe / 100 + doy
  (era * 146097 + doe : Int) - 719468

/-- Model of `datetime.datetime`: wall-clock calendar fields plus an optional
    timezone offset in minutes (`none` = naive). -/
structure Datetime where
  year : Nat
  month : Nat
  day : Nat
  hour : Nat
  minute : Nat
  second : Nat
  microsecond : Nat
  tzinfo : Option Int
deriving DecidableEq, Repr

/-- Microseconds since the epoch of the wall-clock value; naive datetime
    comparison and `+ timedelta` arithmetic are exact on this timeline. -/
def Datetime.toMicros (t : Datetime) : Int :=
  daysFromCivil t.year t.month t.day * 86400000000 +
    ((t.hour * 3600000000 + t.minute * 60000000 + t.second * 1000000 +
      t.microsecond : Nat) : Int)

/-- Left-pad a numeral to two digits, as `strftime` `%H`, `%M`, `%m`, `%d` do. -/
def pad2 (n : Nat) : String :=
  if n < 10 then "0" ++ toString n else toString n

/-- Left-pad a numeral to four digits, as `strftime` `%Y` does. -/
def pad4 (n : Nat) : String :=
  if n < 10 then "000" ++ toString n
  else if n < 100 then "00" ++ toString n
  else if n < 1000 then "0" ++ toString n
  else toString n

/-- `t.strftime("%Y-%m-%d %H:%M")`: render the wall-clock value at minute
    precision, dropping seconds, microseconds and any offset. -/
def Datetime.strftimeYmdHM (t : Datetime) : String :=
  pad4 t.year ++ "-" ++ pad2 t.month ++ "-" ++ pad2 t.day ++ " " ++
    pad2 t.hour ++ ":" ++ pad2 t.minute

/-- `t.replace(tzinfo=None)` applied under the guard `t.tzinfo is not None`,
    as both handlers do: drop the offset, keep the wall-clock fields. -/
def stripTzIfAware (t : Datetime) : Datetime :=
  if t.tzinfo.isSome then { t with tzinfo := none } else t

/-- Persisted `Booking` row (table model). -/
structure Booking where
  id : Nat
  customer_name : String
  phone_number : String
  booking_time : Datetime
  duration_minutes : Int
deriving DecidableEq, Repr

/-- Response model `BookingPublic` with human-readable time. -/
structure BookingPublic where
  id : Nat
  customer_name : String
  phone_number : String
  booking_time : String
  duration_minutes : Int
deriving DecidableEq, Repr

/-- `BookingPublic.from_orm`: convert DB model to readable format. -/
def BookingPublic.from_orm (b : Booking) : BookingPublic :=
  { id := b.id
    customer_name := b.customer_name
    phone_number := b.phone_number
    booking_time := b.booking_time.strftimeYmdHM
    duration_minutes := b.duration_minutes }

/-- Input schema `BookingCreate`. -/
structure BookingCreate where
  customer_name : String
  phone_number : String
  booking_time : Datetime
  duration_minutes : Int := 60
deriving DecidableEq, Repr

/-- Input schema `BookingUpdate` (each `none` field is unset, and is absent
    from `update.model_dump(exclude_unset=True)`). -/
structure BookingUpdate where
  customer_name : Option String := none
  phone_number : Option String := none
  booking_time : Option Datetime := none
  duration_minutes : Option Int := none
deriving DecidableEq, Repr

/-- `HTTPException(status_code=..., detail=...)` payload. -/
structure HTTPError where
  status_code : Nat
  detail : String
deriving DecidableEq, Repr

/-- The conflict error raised by create and update. -/
def conflictError : HTTPError := ⟨400, "Time slot already booked."⟩

/-- The error raised when an id references no row. -/
def notFoundError : HTTPError := ⟨404, "Booking not found"⟩

/-- The bookings table plus the next auto-assigned primary key. -/
structure Store where
  rows : List Booking
  nextId : Nat
deriving DecidableEq, Repr

/-- The store right after `create_db_and_tables`: empty table, first row
    will get id 1. -/
def emptyStore : Store := ⟨[], 1⟩

/-- Start of the slot occupied by a stored booking, in microseconds. -/
def slotStart (b : Booking) : Int := b.booking_time.toMicros

/-- End of the slot: `booking_time + timedelta(minutes=duration_minutes)`. -/
def slotEnd (b : Booking) : Int := slotStart b + b.duration_minutes * 60000000

/-- The half-open intervals `[slotStart a, slotEnd a)` and
    `[slotStart b, slotEnd b)` intersect. -/
def overlaps (a b : Booking) : Prop :=
  slotStart a < slotEnd b ∧ slotStart b < slotEnd a

instance (a b : Booking) : Decidable (overlaps a b) := by
  unfold overlaps; infer_instance

/-- Body of the conflict scan: `new_start < existing_end and
    new_end > existing_start` against one existing row `b`. -/
def conflictsB (newStart newEnd : Int) (b : Booking) : Bool :=
  decide (newStart < slotEnd b) && decide (newEnd > slotStart b)

/-- The row `create_booking` persists: fields of the input, with the offset
    stripped from an aware `booking_time`, under the id the store assigns. -/
def mkCreateRow (inp : BookingCreate) (s : Store) : Booking :=
  { id := s.nextId
    customer_name := inp.customer_name
    phone_number := inp.phone_number
    booking_time := stripTzIfAware inp.booking_time
    duration_minutes := inp.duration_minutes }

/-- `POST /bookings/`: strip the offset if the input time is aware, scan all
    rows for an interval conflict, and either raise 400 (store untouched) or
    insert the new row and return its projection. -/
def create_booking (inp : BookingCreate) (s : Store) :
    Except HTTPError BookingPublic × Store :=
  let newStart := (stripTzIfAware inp.booking_time).toMicros
  let newEnd := newStart + inp.duration_minutes * 60000000
  if s.rows.any (fun b => conflictsB newStart newEnd b) then
    (Except.error conflictError, s)
  else
    (Except.ok (BookingPublic.from_orm (mkCreateRow inp s)),
      ⟨s.rows ++ [mkCreateRow inp s], s.nextId + 1⟩)

/-- `GET /bookings/`: every row as its public projection; no mutation. -/
def list_bookings (s : Store) : List BookingPublic × Store :=
  (s.rows.map BookingPublic.from_orm, s)

/-- `session.get(Booking, k)`: primary-key lookup. -/
def findBooking (rows : List Booking) (k : Nat) : Option Booking :=
  rows.find? (fun b => b.id == k)

/-- `GET /bookings/{id}`: 404 when absent, else the projection; no mutation. -/
def get_booking (k : Nat) (s : Store) : Except HTTPError BookingPublic × Store :=
  match findBooking s.rows k with
  | none => (Except.error notFoundError, s)
  | some b => (Except.ok (BookingPublic.from_orm b), s)

/-- Effective booking time of an update: the supplied value (offset stripped
    if aware) when `booking_time` is set, else the stored value —
    `data.get("booking_time", booking.booking_time)` after the tz fix. -/
def normUpdateTime (u : BookingUpdate) (b : Booking) : Datetime :=
  match u.booking_time with
  | none => b.booking_time
  | some t => stripTzIfAware t

/-- `booking.sqlmodel_update(data)`: merge the supplied fields onto the
    stored row; unsupplied fields keep their stored values, the id is never
    part of the patch. -/
def applyUpdate (b : Booking) (u : BookingUpdate) : Booking :=
  { id := b.id
    customer_name := u.customer_name.getD b.customer_name
    phone_number := u.phone_number.getD b.phone_number
    booking_time := normUpdateTime u b
    duration_minutes := u.duration_minutes.getD b.duration_minutes }

/-- Replace the row the primary-key lookup finds (the first row whose id is
    `k`) with `nb`; models committing the mutated ORM object. -/
def setBooking (rows : List Booking) (k : Nat) (nb : Booking) : List Booking :=
  match rows with
  | [] => []
  | c :: t => if c.id == k then nb :: t else c :: setBooking t k nb

/-- `PATCH /bookings/{id}`: 404 when absent; else compute the effective
    start/duration from the supplied fields and the stored row, scan every
    OTHER row for a conflict, and either raise 400 (store untouched) or
    persist the merged row and return its projection. -/
def update_booking (k : Nat) (u : BookingUpdate) (s : Store) :
    Except HTTPError BookingPublic × Store :=
  match findBooking s.rows k with
  | none => (Except.error notFoundError, s)
  | some b =>
    let nb := applyUpdate b u
    let newStart := slotStart nb
    let newEnd := newStart + nb.duration_minutes * 60000000
    if s.rows.any (fun c => decide (c.id ≠ k) && conflictsB newStart newEnd c) then
      (Except.error conflictError, s)
    else
      (Except.ok (BookingPublic.from_orm nb), ⟨setBooking s.rows k nb, s.nextId⟩)

/-- Remove the row the primary-key lookup finds. -/
def removeBooking (rows : List Booking) (k : Nat) : List Booking :=
  match rows with
  | [] => []
  | c :: t => if c.id == k then t else c :: removeBooking t k

/-- `DELETE /bookings/{id}`: 404 when absent, else remove the row and
    acknowledge with `{ok: true}`. -/
def delete_booking (k : Nat) (s : Store) : Except HTTPError Bool × Store :=
  match findBooking s.rows k with
  | none => (Except.error notFoundError, s)
  | some _ => (Except.ok true, ⟨removeBooking s.rows k, s.nextId⟩)

/-- Store states reachable from the fresh database through the five
    handlers, with arbitrary inputs. -/
inductive Reachable : Store → Prop where
  | empty : Reachable emptyStore
  | create (inp : BookingCreate) {s : Store} :
      Reachable s → Reachable (create_booking inp s).2
  | list {s : Store} : Reachable s → Reachable (list_bookings s).2
  | get (k : Nat) {s : Store} : Reachable s → Reachable (get_booking k s).2
  | update (k : Nat) (u : BookingUpdate) {s : Store} :
      Reachable s → Reachable (update_booking k u s).2
  | delete (k : Nat) {s : Store} :
      Reachable s → Reachable (delete_booking k s).2

/-- The no-overlap store invariant, as the spec states it: distinct stored
    bookings never occupy intersecting slots. -/
def NoOverlapInv (rows : List Booking) : Prop :=
  ∀ a ∈ rows, ∀ b ∈ rows, a.id ≠ b.id → ¬ overlaps a b

/-- Well-formedness carried through the reachability induction: ids are
    below the next key to be assigned, and pairwise-distinct rows have
    distinct ids and non-intersecting slots. -/
def StoreWF (s : Store) : Prop :=
  (∀ b ∈ s.rows, b.id < s.nextId) ∧
  s.rows.Pairwise (fun a b => a.id ≠ b.id ∧ ¬ overlaps a b)

/-! ## Concrete fixtures for the scenario proofs -/

/-- Naive timestamp on 2025-11-23 at the given hour and minute. -/
def nov23 (h mi : Nat) : Datetime := ⟨2025, 11, 23, h, mi, 0, 0, none⟩

/-- Create request occupying [10:00, 11:00). -/
def aliceReq : BookingCreate := ⟨"Alice", "0123", nov23 10 0, 60⟩

/-- Store holding exactly the booking created from `aliceReq` (id 1). -/
def storeA : Store := (create_booking aliceReq emptyStore).2

/-- The row `aliceReq` produces on the fresh store. -/
def aliceRow : Booking := ⟨1, "Alice", "0123", nov23 10 0, 60⟩

/-- Create request occupying [11:00, 12:00). -/
def bobReq : BookingCreate := ⟨"Bob", "4567", nov23 11 0, 60⟩

/-- Store holding the bookings [10:00, 11:00) (id 1) and [11:00, 12:00)
    (id 2). -/
def storeAB : Store := (create_booking bobReq storeA).2

/-- The row `bobReq` produces on `storeA`. -/
def bobRow : Booking := ⟨2, "Bob", "4567", nov23 11 0, 60⟩

/-- Create request occupying [09:00, 10:00). -/
def carolReq : BookingCreate := ⟨"Carol", "0900", nov23 9 0, 60⟩

/-- Store holding exactly the booking created from `carolReq` (id 1). -/
def storeC : Store := (create_booking carolReq emptyStore).2

/-- The row `carolReq` produces on the fresh store. -/
def carolRow : Booking := ⟨1, "Carol", "0900", nov23 9 0, 60⟩

/-- Patch body `{"duration_minutes": 90}`. -/
def dur90 : BookingUpdate := ⟨none, none, none, some 90⟩

/-- Create request carrying the timezone-qualified timestamp
    2025-11-23T10:00:00+00:00. -/
def utcReq : BookingCreate :=
  ⟨"Alice", "0123", ⟨2025, 11, 23, 10, 0, 0, 0, some 0⟩, 60⟩

/-- Create request whose customer_name is the empty string. -/
def emptyNameReq : BookingCreate := ⟨"", "0123", nov23 10 0, 60⟩

/-! ## Helper lemmas -/

theorem overlaps_symm {a b : Booking} (h : overlaps a b) : overlaps b a :=
  ⟨h.2, h.1⟩

theorem toMicros_stripTzIfAware (t : Datetime) :
    (stripTzIfAware t).toMicros = t.toMicros := by
  unfold stripTzIfAware
  split <;> rfl

theorem slotStart_mkCreateRow (inp : BookingCreate) (s : Store) :
    slotStart (mkCreateRow inp s) = inp.booking_time.toMicros :=
  toMicros_stripTzIfAware inp.booking_time

theorem slotEnd_mkCreateRow (inp : BookingCreate) (s : Store) :
    slotEnd (mkCreateRow inp s) =
      inp.booking_time.toMicros + inp.duration_minutes * 60000000 := by
  unfold slotEnd
  rw [slotStart_mkCreateRow]
  rfl

theorem conflictsB_eq_decide_overlaps (nb c : Booking) :
    conflictsB (slotStart nb) (slotEnd nb) c = decide (overlaps nb c) := by
  unfold conflictsB overlaps
  by_cases h1 : slotStart nb < slotEnd c <;>
    by_cases h2 : slotStart c < slotEnd nb <;>
      simp [h1, h2, gt_iff_lt]

theorem mem_setBooking {rows : List Booking} {k : Nat} {nb c : Booking}
    (h : c ∈ setBooking rows k nb) : c = nb ∨ c ∈ rows := by
  induction rows with
  | nil => simp [setBooking] at h
  | cons a t ih =>
    unfold setBooking at h
    split at h
    · rcases List.mem_cons.mp h with h | h
      · exact Or.inl h
      · exact Or.inr (List.mem_cons_of_mem _ h)
    · rcases List.mem_cons.mp h with h | h
      · exact Or.inr (h ▸ List.mem_cons_self _ _)
      · rcases ih h with h | h
        · exact Or.inl h
        · exact Or.inr (List.mem_cons_of_mem _ h)

theorem mem_setBooking_of_ne {rows : List Booking} {k : Nat} {nb c : Booking}
    (hc : c ∈ rows) (hne : c.id ≠ k) : c ∈ setBooking rows k nb := by
  induction rows with
  | nil => simp at hc
  | cons a t ih =>
    unfold setBooking
    rcases List.mem_cons.mp hc with rfl | hc
    · have : (c.id == k) = false := by simp [hne]
      rw [this]
      simp
    · split
      · exact List.mem_cons_of_mem _ hc
      · exact List.mem_cons_of_mem _ (ih hc)

theorem setBooking_pairwise {rows : List Booking} {k : Nat} {nb : Booking}
    (hid : nb.id = k)
    (hpw : rows.Pairwise (fun a b => a.id ≠ b.id ∧ ¬ overlaps a b))
    (hguard : ∀ c ∈ rows, c.id ≠ k → ¬ overlaps nb c) :
    (setBooking rows k nb).Pairwise (fun a b => a.id ≠ b.id ∧ ¬ overlaps a b) := by
  induction rows with
  | nil => simp [setBooking]
  | cons a t ih =>
    rw [List.pairwise_cons] at hpw
    unfold setBooking
    split
    · rename_i hak
      have haid : a.id = k := by simpa using hak
      rw [List.pairwise_cons]
      refine ⟨?_, hpw.2⟩
      intro c hc
      have hat := hpw.1 c hc
      have hck : c.id ≠ k := fun h => hat.1 (haid.trans h.symm)
      exact ⟨hid ▸ fun h => hck h.symm,
        hguard c (List.mem_cons_of_mem _ hc) hck⟩
    · rename_i hak
      have haid : a.id ≠ k := by simpa using hak
      rw [List.pairwise_cons]
      constructor
      · intro c hc
        rcases mem_setBooking hc with rfl | hc
        · exact ⟨fun h => haid (h.trans hid),
            fun hov => hguard a (List.mem_cons_self _ _) haid
              (overlaps_symm hov)⟩
        · exact hpw.1 c hc
      · exact ih hpw.2 fun c hc hck =>
          hguard c (List.mem_cons_of_mem _ hc) hck

theorem removeBooking_sublist (rows : List Booking) (k : Nat) :
    (removeBooking rows k).Sublist rows := by
  induction rows with
  | nil => exact List.Sublist.refl _
  | cons a t ih =>
    unfold removeBooking
    split
    · exact List.Sublist.cons _ (List.Sublist.refl _)
    · exact List.Sublist.cons₂ _ ih

theorem findBooking_id {rows : List Booking} {k : Nat} {b : Booking}
    (h : findBooking rows k = some b) : b.id = k := by
  have := List.find?_some h
  simpa using this

theorem findBooking_mem {rows : List Booking} {k : Nat} {b : Booking}
    (h : findBooking rows k = some b) : b ∈ rows :=
  List.mem_of_find?_eq_some h

theorem storeWF_empty : StoreWF emptyStore := by
  constructor <;> simp [emptyStore]

theorem storeWF_create (inp : BookingCreate) {s : Store} (h : StoreWF s) :
    StoreWF (create_booking inp s).2 := by
  simp only [create_booking]
  split
  · exact h
  · rename_i hany
    rw [List.any_eq_true] at hany
    have hg : ∀ c ∈ s.rows, ¬ overlaps (mkCreateRow inp s) c := by
      intro c hc hov
      exact hany ⟨c, hc,
        (conflictsB_eq_decide_overlaps (mkCreateRow inp s) c).trans
          (decide_eq_true hov)⟩
    constructor
    · intro b hb
      rcases List.mem_append.mp hb with hb | hb
      · exact Nat.lt_succ_of_lt (h.1 b hb)
      · rw [List.mem_singleton] at hb
        subst hb
        exact Nat.lt_succ_self _
    · rw [List.pairwise_append]
      refine ⟨h.2, List.pairwise_singleton _ _, ?_⟩
      intro a ha b hb
      rw [List.mem_singleton] at hb
      subst hb
      exact ⟨Nat.ne_of_lt (h.1 a ha),
        fun hov => hg a ha (overlaps_symm hov)⟩

theorem get_booking_snd (k : Nat) (s : Store) : (get_booking k s).2 = s := by
  unfold get_booking
  cases hfind : findBooking s.rows k <;> rfl

theorem storeWF_update (k : Nat) (u : BookingUpdate) {s : Store}
    (h : StoreWF s) : StoreWF (update_booking k u s).2 := by
  unfold update_booking
  cases hfind : findBooking s.rows k with
  | none => exact h
  | some b =>
    simp only []
    split
    · exact h
    · rename_i hany
      rw [List.any_eq_true] at hany
      have hbk : b.id = k := findBooking_id hfind
      have hbmem : b ∈ s.rows := findBooking_mem hfind
      have hnbid : (applyUpdate b u).id = k := hbk
      have hguard : ∀ c ∈ s.rows, c.id ≠ k → ¬ overlaps (applyUpdate b u) c := by
        intro c hc hck hov
        refine hany ⟨c, hc, ?_⟩
        rw [Bool.and_eq_true]
        exact ⟨decide_eq_true hck,
          (conflictsB_eq_decide_overlaps (applyUpdate b u) c).trans
            (decide_eq_true hov)⟩
      constructor
      · intro c hc
        rcases mem_setBooking hc with rfl | hc
        · exact hnbid ▸ hbk ▸ h.1 b hbmem
        · exact h.1 c hc
      · exact setBooking_pairwise hnbid h.2 hguard

theorem storeWF_delete (k : Nat) {s : Store} (h : StoreWF s) :
    StoreWF (delete_booking k s).2 := by
  unfold delete_booking
  cases hfind : findBooking s.rows k with
  | none => exact h
  | some b =>
    constructor
    · intro c hc
      exact h.1 c ((removeBooking_sublist s.rows k).subset hc)
    · exact h.2.sublist (removeBooking_sublist s.rows k)

theorem reachable_storeWF {s : Store} (h : Reachable s) : StoreWF s := by
  induction h with
  | empty => exact storeWF_empty
  | create inp _ ih => exact storeWF_create inp ih
  | list _ ih => exact ih
  | get k _ ih => exact (get_booking_snd k _) ▸ ih
  | update k u _ ih => exact storeWF_update k u ih
  | delete k _ ih => exact storeWF_delete k ih

theorem create_booking_eq (inp : BookingCreate) (s : Store) :
    create_booking inp s =
      (if s.rows.any fun b =>
          conflictsB (slotStart (mkCreateRow inp s)) (slotEnd (mkCreateRow inp s)) b then
        (Except.error conflictError, s)
      else
        (Except.ok (BookingPublic.from_orm (mkCreateRow inp s)),
          ⟨s.rows ++ [mkCreateRow inp s], s.nextId + 1⟩)) := rfl

theorem update_booking_eq (k : Nat) (u : BookingUpdate) (s : Store) :
    update_booking k u s =
      (match findBooking s.rows k with
      | none => (Except.error notFoundError, s)
      | some b =>
        if s.rows.any fun c => decide (c.id ≠ k) &&
            conflictsB (slotStart (applyUpdate b u)) (slotEnd (applyUpdate b u)) c then
          (Except.error conflictError, s)
        else
          (Except.ok (BookingPublic.from_orm (applyUpdate b u)),
            ⟨setBooking s.rows k (applyUpdate b u), s.nextId⟩)) := rfl

theorem create_booking_of_conflict {inp : BookingCreate} {s : Store} {c : Booking}
    (hc : c ∈ s.rows) (hov : overlaps (mkCreateRow inp s) c) :
    create_booking inp s = (Except.error conflictError, s) := by
  rw [create_booking_eq]
  have hany : (s.rows.any fun b =>
      conflictsB (slotStart (mkCreateRow inp s)) (slotEnd (mkCreateRow inp s)) b) = true :=
    List.any_eq_true.mpr ⟨c, hc,
      (conflictsB_eq_decide_overlaps _ c).trans (decide_eq_true hov)⟩
  rw [hany]
  rfl

theorem create_booking_of_free {inp : BookingCreate} {s : Store}
    (hg : ∀ c ∈ s.rows, ¬ overlaps (mkCreateRow inp s) c) :
    create_booking inp s =
      (Except.ok (BookingPublic.from_orm (mkCreateRow inp s)),
        ⟨s.rows ++ [mkCreateRow inp s], s.nextId + 1⟩) := by
  rw [create_booking_eq]
  have hany : (s.rows.any fun b =>
      conflictsB (slotStart (mkCreateRow inp s)) (slotEnd (mkCreateRow inp s)) b) = false := by
    rw [List.any_eq_false]
    intro c hc
    rw [conflictsB_eq_decide_overlaps]
    simpa using hg c hc
  rw [hany]
  rfl

theorem update_booking_of_notFound {k : Nat} {u : BookingUpdate} {s : Store}
    (h : findBooking s.rows k = none) :
    update_booking k u s = (Except.error notFoundError, s) := by
  rw [update_booking_eq, h]

theorem update_booking_some_eq {k : Nat} {u : BookingUpdate} {s : Store}
    {b : Booking} (hfind : findBooking s.rows k = some b) :
    update_booking k u s =
      (if s.rows.any fun c => decide (c.id ≠ k) &&
          conflictsB (slotStart (applyUpdate b u)) (slotEnd (applyUpdate b u)) c then
        (Except.error conflictError, s)
      else
        (Except.ok (BookingPublic.from_orm (applyUpdate b u)),
          ⟨setBooking s.rows k (applyUpdate b u), s.nextId⟩)) := by
  rw [update_booking_eq, hfind]

theorem update_booking_of_conflict {k : Nat} {u : BookingUpdate} {s : Store}
    {b c : Booking} (hfind : findBooking s.rows k = some b) (hc : c ∈ s.rows)
    (hck : c.id ≠ k) (hov : overlaps (applyUpdate b u) c) :
    update_booking k u s = (Except.error conflictError, s) := by
  rw [update_booking_some_eq hfind]
  have hany : (s.rows.any fun c => decide (c.id ≠ k) &&
      conflictsB (slotStart (applyUpdate b u)) (slotEnd (applyUpdate b u)) c) = true := by
    refine List.any_eq_true.mpr ⟨c, hc, ?_⟩
    rw [Bool.and_eq_true]
    exact ⟨decide_eq_true hck,
      (conflictsB_eq_decide_overlaps _ c).trans (decide_eq_true hov)⟩
  rw [hany]
  rfl

theorem update_booking_of_free {k : Nat} {u : BookingUpdate} {s : Store}
    {b : Booking} (hfind : findBooking s.rows k = some b)
    (hg : ∀ c ∈ s.rows, c.id ≠ k → ¬ overlaps (applyUpdate b u) c) :
    update_booking k u s =
      (Except.ok (BookingPublic.from_orm (applyUpdate b u)),
        ⟨setBooking s.rows k (applyUpdate b u), s.nextId⟩) := by
  rw [update_booking_some_eq hfind]
  have hany : (s.rows.any fun c => decide (c.id ≠ k) &&
      conflictsB (slotStart (applyUpdate b u)) (slotEnd (applyUpdate b u)) c) = false := by
    rw [List.any_eq_false]
    intro c hc
    rw [Bool.and_eq_true, conflictsB_eq_decide_overlaps]
    rintro ⟨h1, h2⟩
    exact hg c hc (of_decide_eq_true h1) (of_decide_eq_true h2)
  rw [hany]
  rfl

theorem wfRel_symm :
    Symmetric (fun a b : Booking => a.id ≠ b.id ∧ ¬ overlaps a b) :=
  fun _ _ hxy => ⟨Ne.symm hxy.1, fun hov => hxy.2 (overlaps_symm hov)⟩

/-! ## Claims -/

/-- C1: starting from the empty store, every sequence of create, list, get,
    update and delete operations leads only to stores in which any two
    stored bookings with distinct ids occupy non-intersecting half-open
    slots: the no-overlap invariant holds in every reachable state. -/
theorem C1_no_overlap_invariant {s : Store} (h : Reachable s) :
    NoOverlapInv s.rows := by
  have hwf := reachable_storeWF h
  intro a ha b hb hne
  by_cases hab : a = b
  · exact absurd (congrArg Booking.id hab) hne
  · exact (List.Pairwise.forall wfRel_symm hwf.2 ha hb hab).2

/-- Witness for C1: the invariant evaluated on the concrete reachable store
    holding the bookings [10:00, 11:00) and [11:00, 12:00). -/
theorem C1_no_overlap_invariant_witness : NoOverlapInv storeAB.rows :=
  C1_no_overlap_invariant
    (Reachable.create bobReq (Reachable.create aliceReq Reachable.empty))

/-- C2: with a booking occupying [10:00, 11:00) stored, any create request
    for [10:30, 11:30) fails with the conflict error and an untouched store,
    while — when that booking is the only row — create requests for
    [11:00, 12:00) (candidate start equal to the existing end) and for
    [09:00, 10:00) (candidate end equal to the existing start) both succeed:
    touching boundaries do not count as overlap. -/
theorem C2_half_open_boundaries {s : Store} {b : Booking} (hb : b ∈ s.rows)
    (hS : slotStart b = (nov23 10 0).toMicros)
    (hE : slotEnd b = (nov23 11 0).toMicros) :
    (∀ name phone, create_booking ⟨name, phone, nov23 10 30, 60⟩ s =
        (Except.error conflictError, s)) ∧
    (∀ name phone, s.rows = [b] →
      create_booking ⟨name, phone, nov23 11 0, 60⟩ s =
        (Except.ok (BookingPublic.from_orm
            (mkCreateRow ⟨name, phone, nov23 11 0, 60⟩ s)),
          ⟨s.rows ++ [mkCreateRow ⟨name, phone, nov23 11 0, 60⟩ s],
            s.nextId + 1⟩)) ∧
    (∀ name phone, s.rows = [b] →
      create_booking ⟨name, phone, nov23 9 0, 60⟩ s =
        (Except.ok (BookingPublic.from_orm
            (mkCreateRow ⟨name, phone, nov23 9 0, 60⟩ s)),
          ⟨s.rows ++ [mkCreateRow ⟨name, phone, nov23 9 0, 60⟩ s],
            s.nextId + 1⟩)) := by
  refine ⟨?_, ?_, ?_⟩
  · intro name phone
    refine create_booking_of_conflict hb ⟨?_, ?_⟩
    · rw [slotStart_mkCreateRow, hE]
      show (nov23 10 30).toMicros < (nov23 11 0).toMicros
      decide
    · rw [slotEnd_mkCreateRow, hS]
      show (nov23 10 0).toMicros < (nov23 10 30).toMicros + 60 * 60000000
      decide
  · intro name phone hrows
    refine create_booking_of_free ?_
    intro c hc hov
    rw [hrows, List.mem_singleton] at hc
    subst hc
    have h1 := hov.1
    rw [slotStart_mkCreateRow, hE] at h1
    have h1n : (nov23 11 0).toMicros < (nov23 11 0).toMicros := h1
    exact absurd h1n (by decide)
  · intro name phone hrows
    refine create_booking_of_free ?_
    intro c hc hov
    rw [hrows, List.mem_singleton] at hc
    subst hc
    have h2 := hov.2
    rw [slotEnd_mkCreateRow, hS] at h2
    have h2n : (nov23 10 0).toMicros <
        (nov23 9 0).toMicros + 60 * 60000000 := h2
    exact absurd h2n (by decide)

/-- Witness for C2 on the concrete one-booking store `storeA`. -/
theorem C2_half_open_boundaries_witness :
    aliceRow ∈ storeA.rows ∧
    slotStart aliceRow = (nov23 10 0).toMicros ∧
    slotEnd aliceRow = (nov23 11 0).toMicros ∧
    create_booking ⟨"Bea", "1", nov23 10 30, 60⟩ storeA =
      (Except.error conflictError, storeA) ∧
    create_booking ⟨"Bea", "1", nov23 11 0, 60⟩ storeA =
      (Except.ok (BookingPublic.from_orm
          (mkCreateRow ⟨"Bea", "1", nov23 11 0, 60⟩ storeA)),
        ⟨storeA.rows ++ [mkCreateRow ⟨"Bea", "1", nov23 11 0, 60⟩ storeA],
          storeA.nextId + 1⟩) ∧
    create_booking ⟨"Bea", "1", nov23 9 0, 60⟩ storeA =
      (Except.ok (BookingPublic.from_orm
          (mkCreateRow ⟨"Bea", "1", nov23 9 0, 60⟩ storeA)),
        ⟨storeA.rows ++ [mkCreateRow ⟨"Bea", "1", nov23 9 0, 60⟩ storeA],
          storeA.nextId + 1⟩) := by
  have hb : aliceRow ∈ storeA.rows := by decide
  have hS : slotStart aliceRow = (nov23 10 0).toMicros := rfl
  have hE : slotEnd aliceRow = (nov23 11 0).toMicros := by decide
  obtain ⟨h1, h2, h3⟩ := C2_half_open_boundaries hb hS hE
  exact ⟨hb, hS, hE, h1 "Bea" "1", h2 "Bea" "1" (by decide),
    h3 "Bea" "1" (by decide)⟩

/-- C3: updating the duration of the stored booking occupying [09:00, 10:00)
    to 90 minutes succeeds whenever no OTHER stored booking intersects
    [09:00, 10:30): the conflict check uses the effective start and duration
    and skips every row carrying the updated id, so there is no false
    self-conflict. -/
theorem C3_update_self_exclusion {s : Store} {k : Nat} {b : Booking}
    (hfind : findBooking s.rows k = some b)
    (hS : slotStart b = (nov23 9 0).toMicros)
    (hD : b.duration_minutes = 60)
    (hothers : ∀ c ∈ s.rows, c.id ≠ k →
      ¬ (slotStart c < (nov23 10 30).toMicros ∧
         (nov23 9 0).toMicros < slotEnd c)) :
    update_booking k dur90 s =
      (Except.ok (BookingPublic.from_orm { b with duration_minutes := 90 }),
        ⟨setBooking s.rows k { b with duration_minutes := 90 }, s.nextId⟩) := by
  have happ : applyUpdate b dur90 = { b with duration_minutes := 90 } := rfl
  have hend : slotEnd { b with duration_minutes := 90 } =
      (nov23 9 0).toMicros + 90 * 60000000 := by
    unfold slotEnd
    rw [show slotStart { b with duration_minutes := 90 } = slotStart b from rfl, hS]
  have h := update_booking_of_free hfind (fun c hc hck hov => by
    rw [happ] at hov
    refine hothers c hc hck ⟨?_, ?_⟩
    · have h2 := hov.2
      rw [hend] at h2
      exact lt_of_lt_of_eq h2 (by decide)
    · have h1 := hov.1
      rw [show slotStart { b with duration_minutes := 90 } = slotStart b from rfl,
        hS] at h1
      exact h1)
  rw [happ] at h
  exact h

/-- Witness for C3 on the concrete store holding only the [09:00, 10:00)
    booking: its duration is updated to 90 with no self-conflict. -/
theorem C3_update_self_exclusion_witness :
    findBooking storeC.rows 1 = some carolRow ∧
    update_booking 1 dur90 storeC =
      (Except.ok (BookingPublic.from_orm { carolRow with duration_minutes := 90 }),
        ⟨setBooking storeC.rows 1 { carolRow with duration_minutes := 90 },
          storeC.nextId⟩) := by
  have hf : findBooking storeC.rows 1 = some carolRow := rfl
  exact ⟨hf, C3_update_self_exclusion hf rfl rfl (by decide)⟩

/-- C4: whenever the effective slot of a create request, or of an update of
    the row found under id k, intersects the slot of some other stored
    booking, the handler returns the conflict error and the resulting store
    is exactly the one it started from: no row inserted, no field changed. -/
theorem C4_conflict_atomicity :
    (∀ (inp : BookingCreate) (s : Store) (c : Booking), c ∈ s.rows →
      overlaps (mkCreateRow inp s) c →
      create_booking inp s = (Except.error conflictError, s)) ∧
    (∀ (k : Nat) (u : BookingUpdate) (s : Store) (b c : Booking),
      findBooking s.rows k = some b → c ∈ s.rows → c.id ≠ k →
      overlaps (applyUpdate b u) c →
      update_booking k u s = (Except.error conflictError, s)) :=
  ⟨fun _ _ _ hc hov => create_booking_of_conflict hc hov,
   fun _ _ _ _ _ hf hc hck hov => update_booking_of_conflict hf hc hck hov⟩

/-- Witness for C4: a create of [10:30, 11:30) against the stored
    [10:00, 11:00), and an update moving [11:00, 12:00) onto [10:30, 11:30),
    both fail with the conflict error and an unchanged store. -/
theorem C4_conflict_atomicity_witness :
    aliceRow ∈ storeA.rows ∧
    overlaps (mkCreateRow ⟨"Bea", "1", nov23 10 30, 60⟩ storeA) aliceRow ∧
    create_booking ⟨"Bea", "1", nov23 10 30, 60⟩ storeA =
      (Except.error conflictError, storeA) ∧
    findBooking storeAB.rows 2 = some bobRow ∧
    aliceRow ∈ storeAB.rows ∧
    overlaps (applyUpdate bobRow ⟨none, none, some (nov23 10 30), none⟩) aliceRow ∧
    update_booking 2 ⟨none, none, some (nov23 10 30), none⟩ storeAB =
      (Except.error conflictError, storeAB) := by
  have h1 : aliceRow ∈ storeA.rows := by decide
  have h2 : overlaps (mkCreateRow ⟨"Bea", "1", nov23 10 30, 60⟩ storeA) aliceRow := by
    decide
  have h3 : findBooking storeAB.rows 2 = some bobRow := rfl
  have h4 : aliceRow ∈ storeAB.rows := by decide
  have h5 : overlaps (applyUpdate bobRow ⟨none, none, some (nov23 10 30), none⟩)
      aliceRow := by decide
  exact ⟨h1, h2, C4_conflict_atomicity.1 _ _ _ h1 h2, h3, h4, h5,
    C4_conflict_atomicity.2 _ _ _ _ _ h3 h4 (by decide) h5⟩

/-- C5: a successful partial update rewrites exactly the supplied fields of
    the found row: every unsupplied field keeps its stored value, the id is
    unchanged, the store keeps its next key, and every row whose id differs
    from the updated one is still present unchanged. -/
theorem C5_partial_update_frame {k : Nat} {u : BookingUpdate} {s : Store}
    {b : Booking} {p : BookingPublic} {s2 : Store}
    (hfind : findBooking s.rows k = some b)
    (hok : update_booking k u s = (Except.ok p, s2)) :
    s2.rows = setBooking s.rows k (applyUpdate b u) ∧
    s2.nextId = s.nextId ∧
    (applyUpdate b u).id = b.id ∧
    (applyUpdate b u).customer_name = u.customer_name.getD b.customer_name ∧
    (applyUpdate b u).phone_number = u.phone_number.getD b.phone_number ∧
    (applyUpdate b u).booking_time =
      (match u.booking_time with
       | none => b.booking_time
       | some t => stripTzIfAware t) ∧
    (applyUpdate b u).duration_minutes =
      u.duration_minutes.getD b.duration_minutes ∧
    p = BookingPublic.from_orm (applyUpdate b u) ∧
    ∀ c ∈ s.rows, c.id ≠ k → c ∈ s2.rows := by
  rw [update_booking_some_eq hfind] at hok
  by_cases hany : (s.rows.any fun c => decide (c.id ≠ k) &&
      conflictsB (slotStart (applyUpdate b u)) (slotEnd (applyUpdate b u)) c) = true
  · rw [if_pos hany] at hok
    exact absurd hok (by simp)
  · rw [if_neg hany] at hok
    rw [Prod.mk.injEq] at hok
    obtain ⟨hp, hs⟩ := hok
    refine ⟨by rw [← hs], by rw [← hs], rfl, rfl, rfl, rfl, rfl, ?_, ?_⟩
    · injection hp with hp
      exact hp.symm
    · intro c hc hck
      rw [← hs]
      exact mem_setBooking_of_ne hc hck

/-- Witness for C5: a patch of customer_name and duration on the concrete
    one-booking store changes exactly those fields. -/
theorem C5_partial_update_frame_witness :
    findBooking storeA.rows 1 = some aliceRow ∧
    update_booking 1 ⟨some "Alicia", none, none, some 30⟩ storeA =
      (Except.ok (BookingPublic.from_orm
        (applyUpdate aliceRow ⟨some "Alicia", none, none, some 30⟩)),
        ⟨setBooking storeA.rows 1
          (applyUpdate aliceRow ⟨some "Alicia", none, none, some 30⟩),
          storeA.nextId⟩) ∧
    (applyUpdate aliceRow ⟨some "Alicia", none, none, some 30⟩).customer_name
      = "Alicia" ∧
    (applyUpdate aliceRow ⟨some "Alicia", none, none, some 30⟩).phone_number
      = aliceRow.phone_number ∧
    (applyUpdate aliceRow ⟨some "Alicia", none, none, some 30⟩).booking_time
      = aliceRow.booking_time ∧
    (applyUpdate aliceRow ⟨some "Alicia", none, none, some 30⟩).duration_minutes
      = 30 ∧
    (applyUpdate aliceRow ⟨some "Alicia", none, none, some 30⟩).id = 1 := by
  have hf : findBooking storeA.rows 1 = some aliceRow := rfl
  have hok : update_booking 1 ⟨some "Alicia", none, none, some 30⟩ storeA =
      (Except.ok (BookingPublic.from_orm
        (applyUpdate aliceRow ⟨some "Alicia", none, none, some 30⟩)),
        ⟨setBooking storeA.rows 1
          (applyUpdate aliceRow ⟨some "Alicia", none, none, some 30⟩),
          storeA.nextId⟩) := rfl
  obtain ⟨-, -, hid, hcn, hpn, hbt, hdm, -, -⟩ :=
    C5_partial_update_frame hf hok
  exact ⟨hf, hok, hcn, hpn, hbt, hdm, hid⟩

/-- C6: a create input whose booking_time carries an offset is stored with
    the same wall-clock fields and the offset removed (stripped, not
    converted); concretely, the booking created from
    2025-11-23T10:00:00+00:00 is retrievable under id 1 and its projection
    renders booking_time as "2025-11-23 10:00". -/
theorem C6_timezone_strip :
    (∀ (inp : BookingCreate) (s : Store) (p : BookingPublic) (s2 : Store),
      inp.booking_time.tzinfo.isSome →
      create_booking inp s = (Except.ok p, s2) →
      s2.rows = s.rows ++ [mkCreateRow inp s] ∧
      (mkCreateRow inp s).booking_time =
        { inp.booking_time with tzinfo := none }) ∧
    get_booking 1 (create_booking utcReq emptyStore).2 =
      (Except.ok ⟨1, "Alice", "0123", "2025-11-23 10:00", 60⟩,
        (create_booking utcReq emptyStore).2) := by
  constructor
  · intro inp s p s2 haware hok
    rw [create_booking_eq] at hok
    by_cases hany : (s.rows.any fun b => conflictsB (slotStart (mkCreateRow inp s))
        (slotEnd (mkCreateRow inp s)) b) = true
    · rw [if_pos hany] at hok
      exact absurd hok (by simp)
    · rw [if_neg hany] at hok
      rw [Prod.mk.injEq] at hok
      constructor
      · rw [← hok.2]
      · show stripTzIfAware inp.booking_time = _
        unfold stripTzIfAware
        rw [if_pos haware]
  · rfl

/-- Witness for C6: the general stripping conjunct applied to the concrete
    timezone-qualified request on the empty store. -/
theorem C6_timezone_strip_witness :
    utcReq.booking_time.tzinfo.isSome ∧
    ((create_booking utcReq emptyStore).2.rows =
        emptyStore.rows ++ [mkCreateRow utcReq emptyStore] ∧
      (mkCreateRow utcReq emptyStore).booking_time =
        { utcReq.booking_time with tzinfo := none }) :=
  ⟨rfl, C6_timezone_strip.1 utcReq emptyStore
    (BookingPublic.from_orm (mkCreateRow utcReq emptyStore))
    ⟨emptyStore.rows ++ [mkCreateRow utcReq emptyStore], emptyStore.nextId + 1⟩
    rfl rfl⟩

/-- C7: when an id references no stored booking, get, update and delete each
    return the 404 error carrying the fixed message "Booking not found" and
    leave the store exactly as it was. -/
theorem C7_not_found {s : Store} {k : Nat} (h : findBooking s.rows k = none)
    (u : BookingUpdate) :
    get_booking k s = (Except.error notFoundError, s) ∧
    update_booking k u s = (Except.error notFoundError, s) ∧
    delete_booking k s = (Except.error notFoundError, s) := by
  refine ⟨?_, update_booking_of_notFound h, ?_⟩
  · unfold get_booking
    rw [h]
  · unfold delete_booking
    rw [h]

/-- Witness for C7: id 5 on the concrete one-booking store. -/
theorem C7_not_found_witness :
    findBooking storeA.rows 5 = none ∧
    get_booking 5 storeA = (Except.error notFoundError, storeA) ∧
    update_booking 5 ⟨none, none, none, none⟩ storeA =
      (Except.error notFoundError, storeA) ∧
    delete_booking 5 storeA = (Except.error notFoundError, storeA) := by
  have h : findBooking storeA.rows 5 = none := rfl
  exact ⟨h, C7_not_found h ⟨none, none, none, none⟩⟩

/-- C8 counterexample: a create request whose customer_name is the empty
    string is NOT rejected: on the fresh store it succeeds and its row — with
    empty customer_name — sits in a reachable store state. -/
theorem C8_empty_name_counterexample :
    create_booking emptyNameReq emptyStore =
      (Except.ok ⟨1, "", "0123", "2025-11-23 10:00", 60⟩,
        ⟨[⟨1, "", "0123", nov23 10 0, 60⟩], 2⟩) ∧
    Reachable ⟨[⟨1, "", "0123", nov23 10 0, 60⟩], 2⟩ ∧
    ∃ b ∈ (⟨[⟨1, "", "0123", nov23 10 0, 60⟩], 2⟩ : Store).rows,
      b.customer_name = "" := by
  refine ⟨rfl, ?_, ⟨⟨1, "", "0123", nov23 10 0, 60⟩, by decide, rfl⟩⟩
  exact Reachable.create emptyNameReq Reachable.empty

/-- C8 amended: create applies no validation to customer_name: any string,
    the empty string included, is accepted whenever the requested slot
    conflicts with no stored booking, and the stored row carries the name
    verbatim. -/
theorem C8_no_name_validation {inp : BookingCreate} {s : Store}
    (hfree : ∀ c ∈ s.rows, ¬ overlaps (mkCreateRow inp s) c) :
    create_booking inp s =
      (Except.ok (BookingPublic.from_orm (mkCreateRow inp s)),
        ⟨s.rows ++ [mkCreateRow inp s], s.nextId + 1⟩) ∧
    (mkCreateRow inp s).customer_name = inp.customer_name :=
  ⟨create_booking_of_free hfree, rfl⟩

/-- Witness for the amended C8: the empty-name request on the empty store. -/
theorem C8_no_name_validation_witness :
    (∀ c ∈ emptyStore.rows, ¬ overlaps (mkCreateRow emptyNameReq emptyStore) c) ∧
    create_booking emptyNameReq emptyStore =
      (Except.ok (BookingPublic.from_orm (mkCreateRow emptyNameReq emptyStore)),
        ⟨emptyStore.rows ++ [mkCreateRow emptyNameReq emptyStore],
          emptyStore.nextId + 1⟩) ∧
    (mkCreateRow emptyNameReq emptyStore).customer_name =
      emptyNameReq.customer_name := by
  have hfree : ∀ c ∈ emptyStore.rows,
      ¬ overlaps (mkCreateRow emptyNameReq emptyStore) c := by
    intro c hc
    simp [emptyStore] at hc
  obtain ⟨h1, h2⟩ := C8_no_name_validation hfree
  exact ⟨hfree, h1, h2⟩

/-- C9: the only error create can raise is the conflict error — durations
    are never checked for positivity — and on any reachable store holding a
    booking with slot [s, e), s < e, a create request for a zero-length slot
    starting exactly at s succeeds and stores the degenerate row. -/
theorem C9_zero_duration_accepted :
    (∀ (inp : BookingCreate) (s : Store) (e : HTTPError),
      (create_booking inp s).1 = Except.error e → e = conflictError) ∧
    (∀ (s : Store) (b : Booking) (inp : BookingCreate),
      Reachable s → b ∈ s.rows → slotStart b < slotEnd b →
      inp.booking_time = b.booking_time → inp.duration_minutes = 0 →
      create_booking inp s =
        (Except.ok (BookingPublic.from_orm (mkCreateRow inp s)),
          ⟨s.rows ++ [mkCreateRow inp s], s.nextId + 1⟩)) := by
  constructor
  · intro inp s e h
    rw [create_booking_eq] at h
    by_cases hany : (s.rows.any fun c => conflictsB (slotStart (mkCreateRow inp s))
        (slotEnd (mkCreateRow inp s)) c) = true
    · rw [if_pos hany] at h
      have h2 : Except.error (α := BookingPublic) conflictError = Except.error e := h
      injection h2 with h3
      exact h3.symm
    · rw [if_neg hany] at h
      exact absurd h (by simp)
  · intro s b inp hreach hb hlt htime hdur
    refine create_booking_of_free ?_
    intro c hc hov
    have hstart : slotStart (mkCreateRow inp s) = slotStart b := by
      rw [slotStart_mkCreateRow, htime]
      rfl
    have hend : slotEnd (mkCreateRow inp s) = slotStart b := by
      rw [slotEnd_mkCreateRow, htime, hdur]
      simp [slotStart]
    obtain ⟨h1, h2⟩ := hov
    rw [hstart] at h1
    rw [hend] at h2
    by_cases hcb : c = b
    · subst hcb
      exact absurd h2 (lt_irrefl _)
    · have hwf := reachable_storeWF hreach
      have hR := List.Pairwise.forall wfRel_symm hwf.2 hb hc (fun he => hcb he.symm)
      exact hR.2 ⟨h1, lt_trans h2 hlt⟩

/-- Witness for C9: a zero-duration create at the occupied start 10:00 on
    the concrete reachable one-booking store succeeds. -/
theorem C9_zero_duration_accepted_witness :
    aliceRow ∈ storeA.rows ∧ slotStart aliceRow < slotEnd aliceRow ∧
    create_booking ⟨"Zoe", "7", nov23 10 0, 0⟩ storeA =
      (Except.ok (BookingPublic.from_orm
          (mkCreateRow ⟨"Zoe", "7", nov23 10 0, 0⟩ storeA)),
        ⟨storeA.rows ++ [mkCreateRow ⟨"Zoe", "7", nov23 10 0, 0⟩ storeA],
          storeA.nextId + 1⟩) := by
  have hb : aliceRow ∈ storeA.rows := by decide
  have hlt : slotStart aliceRow < slotEnd aliceRow := by decide
  exact ⟨hb, hlt, C9_zero_duration_accepted.2 storeA aliceRow
    ⟨"Zoe", "7", nov23 10 0, 0⟩ (Reachable.create aliceReq Reachable.empty)
    hb hlt rfl rfl⟩

theorem setBooking_self {rows : List Booking} {k : Nat} {b : Booking}
    (hfind : findBooking rows k = some b) : setBooking rows k b = rows := by
  induction rows with
  | nil => rfl
  | cons a t ih =>
    unfold setBooking
    by_cases hak : (a.id == k) = true
    · rw [if_pos hak]
      have hba : b = a := by
        rw [findBooking,
          List.find?_cons_of_pos (p := fun b => b.id == k) t hak] at hfind
        injection hfind with h
        exact h.symm
      rw [hba]
    · rw [if_neg hak]
      congr 1
      apply ih
      rw [findBooking,
        List.find?_cons_of_neg (p := fun b => b.id == k) t hak] at hfind
      exact hfind

/-- C10: on a store satisfying the no-overlap invariant, an update that
    supplies no fields succeeds on any stored id, returns that booking's
    public projection, and leaves the store — the target row included —
    exactly unchanged. -/
theorem C10_empty_update_identity {s : Store} {k : Nat} {b : Booking}
    (hinv : NoOverlapInv s.rows) (hfind : findBooking s.rows k = some b) :
    update_booking k ⟨none, none, none, none⟩ s =
      (Except.ok (BookingPublic.from_orm b), s) := by
  have happ : applyUpdate b ⟨none, none, none, none⟩ = b := by
    cases b
    rfl
  have hbk : b.id = k := findBooking_id hfind
  have hbm : b ∈ s.rows := findBooking_mem hfind
  have h := update_booking_of_free hfind (fun c hc hck hov => by
    rw [happ] at hov
    exact hinv b hbm c hc (fun he => hck (he.symm.trans hbk)) hov)
  rw [happ, setBooking_self hfind] at h
  rw [h]

/-- Witness for C10: the empty patch on the concrete one-booking store. -/
theorem C10_empty_update_identity_witness :
    NoOverlapInv storeA.rows ∧
    findBooking storeA.rows 1 = some aliceRow ∧
    update_booking 1 ⟨none, none, none, none⟩ storeA =
      (Except.ok (BookingPublic.from_orm aliceRow), storeA) := by
  have hinv : NoOverlapInv storeA.rows := by
    unfold NoOverlapInv
    decide
  have hf : findBooking storeA.rows 1 = some aliceRow := rfl
  exact ⟨hinv, hf, C10_empty_update_identity hinv hf⟩
